import Mathlib

/-!
Verification development for the client-side state layer of Allusion
(tag-collection tree handlers in `src/renderer/frontend/components/TagTree.tsx`
and the file reconciler in `src/renderer/frontend/stores/FileStore.ts`).

Identifiers (tag ids, collection ids, file ids, paths) are modelled as `Nat`;
the code treats them as opaque. Mobx observable arrays are modelled as Lean
lists: `push` is append, `remove(x)` erases the first occurrence, `find` is
`List.find?`. Asynchronous code is single-threaded cooperative in the app, so
awaited sequences are modelled by state passing in program order.
-/

namespace Allusion

/-- A resolved tag collection node: `id`, member tag ids (`tags`), and the
resolved sub-collections (`clientSubCollections` in the code). -/
inductive TagCollection where
  | mk (id : Nat) (tags : List Nat) (subs : List TagCollection)

def TagCollection.id : TagCollection → Nat
  | .mk i _ _ => i

def TagCollection.tags : TagCollection → List Nat
  | .mk _ ts _ => ts

def TagCollection.subs : TagCollection → List TagCollection
  | .mk _ _ ss => ss

mutual

/-- All collection ids in the subtree rooted at a collection (self and
descendants). Used to state which expand-state keys a recursive update
touches. -/
def collectIds : TagCollection → List Nat
  | .mk i _ subs => i :: collectIdsList subs

def collectIdsList : List TagCollection → List Nat
  | [] => []
  | c :: cs => collectIds c ++ collectIdsList cs

end

mutual

/-- `getRecursiveTags` from `handleNodeClick` in TagTree.tsx:
`[...col.tags, ...col.clientSubCollections.flatMap(getRecursiveTags)]`. -/
def getRecursiveTags : TagCollection → List Nat
  | .mk _ tags subs => tags ++ getRecursiveTagsList subs

def getRecursiveTagsList : List TagCollection → List Nat
  | [] => []
  | c :: cs => getRecursiveTags c ++ getRecursiveTagsList cs

end

/-- A JS object used as a map `collectionId → boolean` (`IExpandState`),
modelled as an association list in property order. -/
abbrev ExpandMap := List (Nat × Bool)

/-- Property read `m[k]`: first matching key, `none` when absent. -/
def lookupEntry : ExpandMap → Nat → Option Bool
  | [], _ => none
  | e :: es, k => if e.1 = k then some e.2 else lookupEntry es k

/-- Property write `m[k] = v` (JS semantics: an existing key keeps its
position, a new key is appended). -/
def writeEntry : ExpandMap → Nat → Bool → ExpandMap
  | [], k, v => [(k, v)]
  | e :: es, k, v => if e.1 = k then (k, v) :: es else e :: writeEntry es k v

/-- The JS heap of map objects: a reference is a `Nat`, dereferencing yields
the object's current contents. Every recursive call of
`setExpandStateRecursively` receives the same reference. -/
abbrev ExpHeap := Nat → ExpandMap

/-- Write through reference `r` on the heap. -/
def writeHeap (h : ExpHeap) (r : Nat) (k : Nat) (v : Bool) : ExpHeap :=
  fun i => if i = r then writeEntry (h i) k v else h i

mutual

/-- `setExpandStateRecursively(col, val, expandState)` from TagTree.tsx:
recurses into every sub-collection first (each call mutating the same map
object through reference `r`), then executes `expandState[col.id] = val`,
and returns `expandState` — i.e. the reference it was given. -/
def setExpandStateRecursively (col : TagCollection) (val : Bool) (r : Nat)
    (h : ExpHeap) : Nat × ExpHeap :=
  match col with
  | .mk i _ subs =>
    let h1 := setExpandSubs subs val r h
    (r, writeHeap h1 r i val)

def setExpandSubs : List TagCollection → Bool → Nat → ExpHeap → ExpHeap
  | [], _, _, h => h
  | c :: cs, val, r, h => setExpandSubs cs val r (setExpandStateRecursively c val r h).2

end

mutual

/-- The contents-level effect of `setExpandStateRecursively` on the map it
mutates (children first, self last). -/
def setExpandContent : TagCollection → Bool → ExpandMap → ExpandMap
  | .mk i _ subs, val, m => writeEntry (setExpandContentList subs val m) i val

def setExpandContentList : List TagCollection → Bool → ExpandMap → ExpandMap
  | [], _, m => m
  | c :: cs, val, m => setExpandContentList cs val (setExpandContent c val m)

end

/-- A collection record as stored in `TagCollectionStore.tagCollectionList`:
raw id lists for member tags and sub-collections. -/
structure Collection where
  id : Nat
  tags : List Nat
  subCollections : List Nat
deriving DecidableEq

/-- `onMoveCollection` handler on a collection node in
`createTagCollectionTreeNode` (TagTree.tsx): scan the store for the current
parent (first collection whose `subCollections` contains the moved id); only
when one is found, remove the id from that parent and push it onto the
target collection `col` (identified here by `colId`). -/
def onMoveCollection (store : List Collection) (colId : Nat) (movedId : Nat) :
    List Collection :=
  match store.find? (fun c => c.subCollections.contains movedId) with
  | none => store
  | some parent =>
    store.map (fun c =>
      let c1 := if c.id = parent.id
        then { c with subCollections := c.subCollections.erase movedId }
        else c
      if c1.id = colId
        then { c1 with subCollections := c1.subCollections ++ [movedId] }
        else c1)

/-- JS `Array.prototype.indexOf`: index of the first occurrence, `-1` when
the element is absent. -/
def jsIndexOf (l : List Nat) (x : Nat) : Int :=
  if x ∈ l then (l.indexOf x : Int) else -1

/-- The actual start index used by JS `splice(i, ...)`: negative indices
count from the end and are clamped at `0`; non-negative ones are clamped at
the length. -/
def spliceStart (len : Nat) (i : Int) : Nat :=
  if i < 0 then (max ((len : Int) + i) 0).toNat else min i.toNat len

/-- JS `l.splice(i, 0, x)`: insert `x` at the clamped start index. -/
def jsSpliceInsert (l : List Nat) (i : Int) (x : Nat) : List Nat :=
  l.insertIdx (spliceStart l.length i) x

/-- `onMoveTag` handler on a tag node in `createTagCollectionTreeNode`
(TagTree.tsx): find the original collection holding the moved tag (bail out
with a console error when none), compute the insertion index as the index of
the drop-target tag `targetTagId` inside `col.tags` before any mutation,
remove the moved tag from the original collection, then splice it into
`col.tags` at that index. `col` is identified by `colId`. -/
def onMoveTag (store : List Collection) (colId : Nat) (targetTagId : Nat)
    (movedTagId : Nat) : List Collection :=
  match store.find? (fun c => c.tags.contains movedTagId) with
  | none => store
  | some origCol =>
    match store.find? (fun c => c.id == colId) with
    | none => store
    | some col =>
      let insertionIndex : Int := jsIndexOf col.tags targetTagId
      store.map (fun c =>
        let c1 := if c.id = origCol.id
          then { c with tags := c.tags.erase movedTagId }
          else c
        if c1.id = colId
          then { c1 with tags := jsSpliceInsert c1.tags insertionIndex movedTagId }
          else c1)

/-- Modelled from the spec: `ClientTagCollection.isSelected`
(`src/renderer/entities/TagCollection.ts`, not under `src/`) — a collection
is selected when its descendant tag-id set is non-empty and every one of its
descendant tag ids is in the current selection. -/
def isSelected (col : TagCollection) (sel : List Nat) : Bool :=
  !(getRecursiveTags col).isEmpty && (getRecursiveTags col).all (fun t => sel.contains t)

/-- The collection branch of `handleNodeClick` in TagTree.tsx: compute the
recursive tags of the clicked collection; when it is selected, remove each
of them from the selection (mobx `remove`, first occurrence); otherwise push
each one not already present. -/
def toggleCollection (col : TagCollection) (sel : List Nat) : List Nat :=
  let selectedTags := getRecursiveTags col
  if isSelected col sel then
    selectedTags.foldl (fun s t => s.erase t) sel
  else
    selectedTags.foldl (fun s t => if t ∈ s then s else s ++ [t]) sel

/-- A backend file record (`IFile`). -/
structure IFile where
  id : Nat
  path : Nat
deriving DecidableEq

/-- An in-memory `ClientFile`. `obj` is the allocation token distinguishing
the JS object identity of each constructed instance; `id` and `path` mirror
the entity fields. -/
structure ClientFile where
  obj : Nat
  id : Nat
  path : Nat
deriving DecidableEq

/-- Observable effects of FileStore operations, in program order:
`deselect`/`dispose`/`removeFromList` carry the object token of the
affected `ClientFile`; `backendRemove` carries the id passed to
`backend.removeFile`; `logNotFound` is the console log in
`removeFilesById` when an id does not resolve. -/
inductive RemovalEvent where
  | deselect (obj : Nat)
  | dispose (obj : Nat)
  | removeFromList (obj : Nat)
  | backendRemove (id : Nat)
  | logNotFound
deriving DecidableEq

/-- The FileStore state: the observable `fileList`, the next fresh object
token, and the log of observable effects so far. -/
structure FileStoreState where
  fileList : List ClientFile
  nextObj : Nat
  log : List RemovalEvent
deriving DecidableEq

/-- `FileStore.removeFile(file)`: deselect the file in the UI store, dispose
it, remove it from `fileList` (mobx `remove` drops the first element with
this object identity), and request backend deletion of its record. All three
mutations precede the backend call; this function is the state effect only —
whether the awaited `backend.removeFile` promise resolves or rejects is
tracked by the error-explicit variants (`pruneOneE` and onward) below. -/
def removeFile (f : ClientFile) (st : FileStoreState) : FileStoreState :=
  { st with
    fileList := st.fileList.eraseP (fun g => g.obj == f.obj),
    log := st.log ++
      [.deselect f.obj, .dispose f.obj, .removeFromList f.obj, .backendRemove f.id] }

/-- `FileStore.clearFileList`: dispose every `ClientFile`, then clear. -/
def clearFileList (st : FileStoreState) : FileStoreState :=
  { st with
    log := st.log ++ st.fileList.map (fun f => .dispose f.obj),
    fileList := [] }

/-- `FileStore.replaceFileList(backendFiles)`: dispose every current
`ClientFile`, then replace the list contents. -/
def replaceFileList (newFiles : List ClientFile) (st : FileStoreState) :
    FileStoreState :=
  { st with
    log := st.log ++ st.fileList.map (fun f => .dispose f.obj),
    fileList := newFiles }

/-- One iteration of the existence check in `updateFromBackend`: when the
record's path exists, report `true`; otherwise request backend deletion of
the record, look up a matching in-memory file by id, remove it through
`removeFile` when found, and report `false`. -/
def pruneOne (fsExists : Nat → Bool) (st : FileStoreState) (b : IFile) :
    FileStoreState × Bool :=
  if fsExists b.path then (st, true)
  else
    let st1 := { st with log := st.log ++ [.backendRemove b.id] }
    match st1.fileList.find? (fun f => f.id == b.id) with
    | some cf => (removeFile cf st1, false)
    | none => (st1, false)

/-- The `existenceChecker` pass of `updateFromBackend`. The code fans the
checks out with `Promise.all`; the checks are side-effect-free reads and the
mutations run on the single logical thread, modelled here in list order.
Returns the mutated state and the per-record boolean results. -/
def prunePass : (Nat → Bool) → List IFile → FileStoreState →
    FileStoreState × List Bool
  | _, [], st => (st, [])
  | fsExists, b :: bs, st =>
    let r := pruneOne fsExists st b
    let rest := prunePass fsExists bs r.1
    (rest.1, r.2 :: rest.2)

/-- `FileStore.filesFromBackend`: build a fresh `ClientFile` for each
backend record, in order; each `new ClientFile(...)` takes the next
allocation token. -/
def filesFromBackend : List IFile → Nat → List ClientFile
  | [], _ => []
  | b :: bs, n => ⟨n, b.id, b.path⟩ :: filesFromBackend bs (n + 1)

/-- `existingBackendFiles` in `updateFromBackend`: the backend records whose
existence check came back `true`, in their given order
(`backendFiles.filter((_, i) => existenceChecker[i])`). -/
def survivingFiles (backendFiles : List IFile) (checks : List Bool) : List IFile :=
  (backendFiles.zip checks).filterMap (fun p => if p.2 then some p.1 else none)

/-- `FileStore.updateFromBackend(backendFiles)`: run the existence pass,
keep the surviving records (`existingBackendFiles`), then branch — if the
in-memory list is empty, push the fresh files; else if nothing survived,
clear the list; else replace it wholesale. -/
def updateFromBackend (fsExists : Nat → Bool) (backendFiles : List IFile)
    (st : FileStoreState) : FileStoreState :=
  let pr := prunePass fsExists backendFiles st
  let st1 := pr.1
  let existingBackendFiles := survivingFiles backendFiles pr.2
  if st1.fileList.length = 0 then
    { st1 with
      fileList := st1.fileList ++ filesFromBackend existingBackendFiles st1.nextObj,
      nextObj := st1.nextObj + existingBackendFiles.length }
  else if existingBackendFiles.length = 0 then
    clearFileList st1
  else
    replaceFileList (filesFromBackend existingBackendFiles st1.nextObj)
      { st1 with nextObj := st1.nextObj + existingBackendFiles.length }

/-- `FileStore.fetchAllFiles`: `backend.fetchFiles()` inside `try`; on
success hand the records to `updateFromBackend` (started, not awaited), on
failure log and leave the state untouched. This is the state effect with
backend-removal outcomes elided; `fetchAllFilesE` below makes them
explicit. -/
def fetchAllFiles (fetchResult : Except Unit (List IFile))
    (fsExists : Nat → Bool) (st : FileStoreState) : FileStoreState :=
  match fetchResult with
  | .ok files => updateFromBackend fsExists files st
  | .error _ => st

/-- `FileStore.fetchFilesByTagIDs(tags)`: with an empty tag list delegate to
`fetchAllFiles`; otherwise `backend.searchFiles(tags)` inside `try`, passing
results to `updateFromBackend` and swallowing failures. -/
def fetchFilesByTagIDs (fetchResult searchResult : Except Unit (List IFile))
    (fsExists : Nat → Bool) (tags : List Nat) (st : FileStoreState) :
    FileStoreState :=
  if tags.length = 0 then
    fetchAllFiles fetchResult fsExists st
  else
    match searchResult with
    | .ok files => updateFromBackend fsExists files st
    | .error _ => st

/-- `FileStore.addFile(filePath)`: construct a `ClientFile` (fresh token;
the generated entity id is modelled by the same fresh number), await
`backend.createFile`; on success push the file and return it, on failure
the awaited rejection propagates to the caller before the push runs. -/
def addFile (createOk : Bool) (filePath : Nat) (st : FileStoreState) :
    Except Unit ClientFile × FileStoreState :=
  let file : ClientFile := ⟨st.nextObj, st.nextObj, filePath⟩
  let st1 := { st with nextObj := st.nextObj + 1 }
  if createOk then
    (.ok file, { st1 with fileList := st1.fileList ++ [file] })
  else
    (.error (), st1)

/-- The events one loop iteration of `removeFilesById` produces: the four
`removeFile` effects in order for a resolved file, or the console log for an
unresolved id. -/
def removalBlock : Option ClientFile → List RemovalEvent
  | some f => [.deselect f.obj, .dispose f.obj, .removeFromList f.obj, .backendRemove f.id]
  | none => [.logNotFound]

/-- `FileStore.removeFilesById(ids)`: resolve every id against the current
`fileList` first, then loop over the resolutions in order, awaiting
`removeFile` for each found file before the next iteration and logging a
message for each unresolved id. -/
def removeFilesById (ids : List Nat) (st : FileStoreState) : FileStoreState :=
  let filesToRemove := ids.map (fun i => st.fileList.find? (fun f => f.id == i))
  filesToRemove.foldl
    (fun s of =>
      match of with
      | some f => removeFile f s
      | none => { s with log := s.log ++ [.logNotFound] })
    st

/-- One existence-check callback of `updateFromBackend` with the outcome of
each awaited `backend.removeFile` made explicit: `removeOk id` says whether
the backend deletion for that file id resolves. The direct, un-awaited
`backend.removeFile(backendFile)` is fire-and-forget — its rejection is a
detached unhandled rejection that cannot affect the callback. The awaited
`removeFile(clientFile)` first deselects, disposes and removes the file
from the list and only then returns the backend call: when that call
rejects, the callback rejects with the mutations already applied. Result:
(state, existence-check result, callback rejected?). -/
def pruneOneE (removeOk fsExists : Nat → Bool) (st : FileStoreState)
    (b : IFile) : FileStoreState × Bool × Bool :=
  if fsExists b.path then (st, true, false)
  else
    let st1 := { st with log := st.log ++ [.backendRemove b.id] }
    match st1.fileList.find? (fun f => f.id == b.id) with
    | some cf => (removeFile cf st1, false, !removeOk cf.id)
    | none => (st1, false, false)

/-- The existence pass with rejections tracked: every callback runs to
completion (one rejecting does not cancel the others), and the
`Promise.all` rejects when any callback rejected. Result: (state,
per-record existence results, some callback rejected?). -/
def prunePassE : (Nat → Bool) → (Nat → Bool) → List IFile → FileStoreState →
    FileStoreState × List Bool × Bool
  | _, _, [], st => (st, [], false)
  | removeOk, fsExists, b :: bs, st =>
    let r := pruneOneE removeOk fsExists st b
    let rest := prunePassE removeOk fsExists bs r.1
    (rest.1, r.2.1 :: rest.2.1, r.2.2 || rest.2.2)

/-- `FileStore.updateFromBackend` with `backend.removeFile` outcomes
explicit: nothing in the operation catches or logs a rejection of
`await Promise.all(existenceChecker)`, so it rejects the operation's own
promise — crossing its boundary — and the partition and policy branches
below it never run; otherwise the operation proceeds exactly as
`updateFromBackend`. Result: (state, operation's promise rejected?). -/
def updateFromBackendE (removeOk fsExists : Nat → Bool)
    (backendFiles : List IFile) (st : FileStoreState) :
    FileStoreState × Bool :=
  let pr := prunePassE removeOk fsExists backendFiles st
  let st1 := pr.1
  if pr.2.2 then (st1, true)
  else
    let existingBackendFiles := survivingFiles backendFiles pr.2.1
    if st1.fileList.length = 0 then
      ({ st1 with
         fileList := st1.fileList ++
           filesFromBackend existingBackendFiles st1.nextObj,
         nextObj := st1.nextObj + existingBackendFiles.length }, false)
    else if existingBackendFiles.length = 0 then
      (clearFileList st1, false)
    else
      (replaceFileList (filesFromBackend existingBackendFiles st1.nextObj)
        { st1 with nextObj := st1.nextObj + existingBackendFiles.length }, false)

/-- `FileStore.fetchAllFiles` over the explicit model: a `fetchFiles`
failure is caught and logged inside the operation (state unchanged,
nothing escapes); on success `updateFromBackend` is started but not
awaited, so a rejection of its promise is caught by neither the `try` here
nor anything else — it escapes as an unhandled rejection. Result: (state,
an uncaught rejection escaped the operation?). -/
def fetchAllFilesE (removeOk fsExists : Nat → Bool)
    (fetchResult : Except Unit (List IFile)) (st : FileStoreState) :
    FileStoreState × Bool :=
  match fetchResult with
  | .ok files => updateFromBackendE removeOk fsExists files st
  | .error _ => (st, false)

/-- `FileStore.fetchFilesByTagIDs` over the explicit model, analogously. -/
def fetchFilesByTagIDsE (removeOk fsExists : Nat → Bool)
    (fetchResult searchResult : Except Unit (List IFile)) (tags : List Nat)
    (st : FileStoreState) : FileStoreState × Bool :=
  if tags.length = 0 then
    fetchAllFilesE removeOk fsExists fetchResult st
  else
    match searchResult with
    | .ok files => updateFromBackendE removeOk fsExists files st
    | .error _ => (st, false)

/-! ## Helper lemmas -/

theorem lookupEntry_writeEntry (m : ExpandMap) (k : Nat) (v : Bool) (j : Nat) :
    lookupEntry (writeEntry m k v) j = if j = k then some v else lookupEntry m j := by
  induction m with
  | nil =>
    by_cases hj : j = k
    · subst hj
      simp [writeEntry, lookupEntry]
    · simp [writeEntry, lookupEntry, hj, Ne.symm hj]
  | cons e es ih =>
    by_cases he : e.1 = k
    · by_cases hj : j = k
      · subst hj
        simp [writeEntry, lookupEntry, he]
      · simp [writeEntry, lookupEntry, he, hj, Ne.symm hj]
    · by_cases hj : j = e.1
      · subst hj
        simp [writeEntry, lookupEntry, he]
      · simp [writeEntry, lookupEntry, he, hj, Ne.symm hj, ih]

mutual

theorem setExpandStateRecursively_heap :
    ∀ (col : TagCollection) (val : Bool) (r : Nat) (h : ExpHeap),
      (setExpandStateRecursively col val r h).2 =
        fun i => if i = r then setExpandContent col val (h r) else h i
  | .mk id tags subs, val, r, h => by
    funext i
    have hs := setExpandSubs_heap subs val r h
    simp only [setExpandStateRecursively, setExpandContent, writeHeap, hs]
    by_cases hi : i = r <;> simp [hi]

theorem setExpandSubs_heap :
    ∀ (subs : List TagCollection) (val : Bool) (r : Nat) (h : ExpHeap),
      setExpandSubs subs val r h =
        fun i => if i = r then setExpandContentList subs val (h r) else h i
  | [], val, r, h => by
    funext i
    by_cases hi : i = r <;> simp [setExpandSubs, setExpandContentList, hi]
  | c :: cs, val, r, h => by
    have hc := setExpandStateRecursively_heap c val r h
    have hcs := setExpandSubs_heap cs val r (setExpandStateRecursively c val r h).2
    rw [hc] at hcs
    funext i
    simp only [setExpandSubs, hc, hcs]
    by_cases hi : i = r <;> simp [hi, setExpandContentList]

end

mutual

theorem lookupEntry_setExpandContent :
    ∀ (col : TagCollection) (val : Bool) (m : ExpandMap) (j : Nat),
      lookupEntry (setExpandContent col val m) j =
        if j ∈ collectIds col then some val else lookupEntry m j
  | .mk id tags subs, val, m, j => by
    simp only [setExpandContent, collectIds]
    rw [lookupEntry_writeEntry]
    by_cases hj : j = id
    · simp [hj]
    · rw [lookupEntry_setExpandContentList subs val m j]
      by_cases hjs : j ∈ collectIdsList subs <;> simp [hj, hjs]

theorem lookupEntry_setExpandContentList :
    ∀ (subs : List TagCollection) (val : Bool) (m : ExpandMap) (j : Nat),
      lookupEntry (setExpandContentList subs val m) j =
        if j ∈ collectIdsList subs then some val else lookupEntry m j
  | [], val, m, j => by simp [setExpandContentList, collectIdsList]
  | c :: cs, val, m, j => by
    simp only [setExpandContentList, collectIdsList]
    rw [lookupEntry_setExpandContentList cs val (setExpandContent c val m) j,
      lookupEntry_setExpandContent c val m j]
    by_cases h1 : j ∈ collectIdsList cs <;> by_cases h2 : j ∈ collectIds c <;>
      simp [h1, h2, List.mem_append]

end

/-! ## Claim C3 -/

/-- C3: the claim states that `onMoveCollection` with no current parent
still appends the moved id to the target's `subCollections`. At the
concrete store `[{id := 1}]` with `movedId = 2` (no collection contains
`2`), the handler leaves the store untouched and nothing is appended,
refuting the claim. -/
theorem c3_counterexample :
    onMoveCollection [⟨1, [], []⟩] 1 2 = [⟨1, [], []⟩] ∧
    (2 : Nat) ∉ (Collection.mk 1 [] []).subCollections := by
  decide

/-- C3 (amended): when no collection's `subCollections` contains the moved
id, `onMoveCollection` does nothing at all — no append, no error. -/
theorem c3_orphan_move_is_noop (store : List Collection) (colId movedId : Nat)
    (h : ∀ c ∈ store, movedId ∉ c.subCollections) :
    onMoveCollection store colId movedId = store := by
  unfold onMoveCollection
  have hf : store.find? (fun c => c.subCollections.contains movedId) = none := by
    rw [List.find?_eq_none]
    intro c hc
    simpa using h c hc
  rw [hf]

/-- Witness for C3 (amended) at the concrete one-collection store. -/
theorem c3_orphan_move_is_noop_witness :
    (∀ c ∈ ([⟨1, [], []⟩] : List Collection), (2 : Nat) ∉ c.subCollections) ∧
    onMoveCollection [⟨1, [], []⟩] 1 2 = [⟨1, [], []⟩] :=
  ⟨by decide, c3_orphan_move_is_noop [⟨1, [], []⟩] 1 2 (by decide)⟩

/-! ## Claim C4 -/

/-- C4: the claim states that `setExpandStateRecursively` returns a new map
distinct from its input and leaves the input map unchanged. On a one-cell
heap holding the empty map at reference `0` and a leaf collection with id
`0`, the call returns the very reference it was given (`0`, not a new one)
and the object behind that reference has changed from `[]` to
`[(0, true)]`, refuting both parts of the claim. -/
theorem c4_counterexample :
    (setExpandStateRecursively (.mk 0 [] []) true 0 (fun _ => [])).1 = 0 ∧
    (setExpandStateRecursively (.mk 0 [] []) true 0 (fun _ => [])).2 0 = [(0, true)] ∧
    (fun _ => ([] : ExpandMap)) 0 = [] := by
  exact ⟨rfl, rfl, rfl⟩

/-- C4 (amended): `setExpandStateRecursively` mutates the given map in place
and returns the same reference it was handed; afterwards the map behind that
reference sends the collection's id and every descendant collection's id to
`val` and every other key to whatever it held before. Call sites obtain a
fresh object by spreading the returned map. -/
theorem c4_mutates_in_place (col : TagCollection) (val : Bool) (r : Nat)
    (h : ExpHeap) :
    (setExpandStateRecursively col val r h).1 = r ∧
    ∀ j, lookupEntry ((setExpandStateRecursively col val r h).2 r) j =
      if j ∈ collectIds col then some val else lookupEntry (h r) j := by
  constructor
  · cases col
    rfl
  · intro j
    rw [setExpandStateRecursively_heap]
    simp only [if_pos rfl]
    exact lookupEntry_setExpandContent col val (h r) j

/-! ## Claim C6 -/

/-- C6: the claim states that on the read paths — fetchAllFiles,
fetchFilesByTagIDs and reconciliation — every backend failure is caught
and logged inside the operation, never propagates past its boundary, and
leaves the prior in-memory file list unchanged. Reconciliation refutes it:
with one in-memory file (id 5), a backend record for it whose path fails
the existence check, and a backend `removeFile` that rejects, the
operation's own promise rejects (the failure is caught and logged nowhere)
and the in-memory list has already been emptied — the prior list `[file]`
is not preserved. -/
theorem c6_counterexample :
    (updateFromBackendE (fun _ => false) (fun _ => false) [⟨5, 7⟩]
      ⟨[⟨0, 5, 7⟩], 1, []⟩).2 = true ∧
    (updateFromBackendE (fun _ => false) (fun _ => false) [⟨5, 7⟩]
      ⟨[⟨0, 5, 7⟩], 1, []⟩).1.fileList = [] ∧
    (⟨[⟨0, 5, 7⟩], 1, []⟩ : FileStoreState).fileList = [⟨0, 5, 7⟩] := by
  decide

/-- C6 (amended): on the read paths, backend fetch failures (`fetchFiles`
in `fetchAllFiles`, `searchFiles` in `fetchFilesByTagIDs`) are caught and
logged inside the operation, never escape it, and leave the in-memory
state unchanged. Backend `removeFile` failures during reconciliation are
not handled that way: the direct removal request is fire-and-forget, and a
rejection of the removal awaited through the in-memory pruning path is
caught and logged nowhere — it rejects `updateFromBackend`'s own promise
(surfacing as an unhandled rejection, since the fetch operations do not
await it) after the matching in-memory entry has already been deselected,
disposed and removed from the list. -/
theorem c6_read_path_failures (removeOk fsExists : Nat → Bool)
    (tags : List Nat) (st : FileStoreState) (b : IFile) (cf : ClientFile)
    (hfs : fsExists b.path = false)
    (hfind : st.fileList.find? (fun f => f.id == b.id) = some cf)
    (hrm : removeOk cf.id = false) :
    fetchAllFilesE removeOk fsExists (.error ()) st = (st, false) ∧
    fetchFilesByTagIDsE removeOk fsExists (.error ()) (.error ()) tags st =
      (st, false) ∧
    (updateFromBackendE removeOk fsExists [b] st).2 = true ∧
    (updateFromBackendE removeOk fsExists [b] st).1 =
      removeFile cf { st with log := st.log ++ [.backendRemove b.id] } := by
  refine ⟨rfl, ?_, ?_, ?_⟩
  · unfold fetchFilesByTagIDsE
    split <;> rfl
  · simp [updateFromBackendE, prunePassE, pruneOneE, hfs, hfind, hrm]
  · simp [updateFromBackendE, prunePassE, pruneOneE, hfs, hfind, hrm]

/-- Witness for C6 (amended) at a one-file store with a failing path check
and a rejecting backend removal. -/
theorem c6_read_path_failures_witness :
    fetchAllFilesE (fun _ => false) (fun _ => false) (.error ())
        ⟨[⟨0, 5, 7⟩], 1, []⟩ =
      (⟨[⟨0, 5, 7⟩], 1, []⟩, false) :=
  (c6_read_path_failures (fun _ => false) (fun _ => false) []
    ⟨[⟨0, 5, 7⟩], 1, []⟩ ⟨5, 7⟩ ⟨0, 5, 7⟩ rfl (by decide) rfl).1

/-! ## Claim C7 -/

/-- C7: `addFile` — when `backend.createFile` fails, the error propagates to
the caller (the result is the error outcome, not a swallowed success) and
the file list is unchanged; when it succeeds, the freshly built file is
appended at the end of the list and returned. -/
theorem c7_addFile_spec (filePath : Nat) (st : FileStoreState) :
    (addFile false filePath st).1 = .error () ∧
    (addFile false filePath st).2.fileList = st.fileList ∧
    (addFile true filePath st).1 = .ok ⟨st.nextObj, st.nextObj, filePath⟩ ∧
    (addFile true filePath st).2.fileList =
      st.fileList ++ [⟨st.nextObj, st.nextObj, filePath⟩] := by
  exact ⟨rfl, rfl, rfl, rfl⟩

/-! ## Claim C1 -/

theorem nodup_foldl_erase (D : List Nat) :
    ∀ s : List Nat, s.Nodup → (D.foldl (fun s t => s.erase t) s).Nodup := by
  induction D with
  | nil => intro s hs; simpa using hs
  | cons t D ih =>
    intro s hs
    rw [List.foldl_cons]
    exact ih (s.erase t) (hs.erase t)

theorem mem_foldl_erase (D : List Nat) :
    ∀ (s : List Nat), s.Nodup →
      ∀ a, a ∈ D.foldl (fun s t => s.erase t) s ↔ a ∈ s ∧ a ∉ D := by
  induction D with
  | nil => intro s _ a; simp
  | cons t D ih =>
    intro s hs a
    rw [List.foldl_cons, ih (s.erase t) (hs.erase t) a, hs.mem_erase_iff]
    simp only [List.mem_cons, not_or]
    tauto

theorem mem_foldl_pushNew (D : List Nat) :
    ∀ (s : List Nat) (a : Nat),
      a ∈ D.foldl (fun s t => if t ∈ s then s else s ++ [t]) s ↔ a ∈ s ∨ a ∈ D := by
  induction D with
  | nil => intro s a; simp
  | cons t D ih =>
    intro s a
    rw [List.foldl_cons]
    by_cases ht : t ∈ s
    · rw [if_pos ht, ih s a]
      simp only [List.mem_cons]
      constructor
      · rintro (h | h)
        · exact Or.inl h
        · exact Or.inr (Or.inr h)
      · rintro (h | rfl | h)
        · exact Or.inl h
        · exact Or.inl ht
        · exact Or.inr h
    · rw [if_neg ht, ih (s ++ [t]) a]
      simp only [List.mem_append, List.mem_singleton, List.mem_cons]
      tauto

theorem nodup_foldl_pushNew (D : List Nat) :
    ∀ s : List Nat, s.Nodup →
      (D.foldl (fun s t => if t ∈ s then s else s ++ [t]) s).Nodup := by
  induction D with
  | nil => intro s hs; simpa using hs
  | cons t D ih =>
    intro s hs
    rw [List.foldl_cons]
    by_cases ht : t ∈ s
    · rw [if_pos ht]
      exact ih s hs
    · rw [if_neg ht]
      refine ih (s ++ [t]) ?_
      simp [List.nodup_append, hs, ht]

theorem isSelected_iff (col : TagCollection) (sel : List Nat) :
    isSelected col sel = true ↔
      getRecursiveTags col ≠ [] ∧ ∀ t ∈ getRecursiveTags col, t ∈ sel := by
  simp [isSelected, List.all_eq_true, List.isEmpty_iff]

/-- C1: the claim states that `toggleCollection` is its own inverse for
every collection and every selection. It fails on a partially selected
collection: with descendant tags `{0, 1}` and selection `{0}`, the first
toggle adds `1` (the collection was not fully selected) and the second
toggle — the collection now being fully selected — removes both `0` and
`1`, returning the empty selection instead of `{0}`. -/
theorem c1_counterexample :
    toggleCollection (TagCollection.mk 1 [0, 1] [])
        (toggleCollection (TagCollection.mk 1 [0, 1] []) [0]) = [] ∧
    (0 : Nat) ∈ [0] := by
  decide

/-- C1 (amended): `toggleCollection` applied twice restores the selection's
membership whenever the collection is not partially selected before the
first application — that is, when its descendant tag ids are either all in
the selection or all outside it (with the selection duplicate-free, as the
selection invariant guarantees). -/
theorem c1_toggle_involutive (col : TagCollection) (sel : List Nat)
    (hsel : sel.Nodup)
    (h : (∀ t ∈ getRecursiveTags col, t ∈ sel) ∨
         (∀ t ∈ getRecursiveTags col, t ∉ sel)) :
    ∀ a, a ∈ toggleCollection col (toggleCollection col sel) ↔ a ∈ sel := by
  intro a
  by_cases hnil : getRecursiveTags col = []
  · simp [toggleCollection, hnil]
  · cases h with
    | inl hall =>
      have hq1 : isSelected col sel = true :=
        (isSelected_iff col sel).mpr ⟨hnil, hall⟩
      have ht1 : toggleCollection col sel =
          (getRecursiveTags col).foldl (fun s t => s.erase t) sel := by
        simp [toggleCollection, hq1]
      have hs1mem := mem_foldl_erase (getRecursiveTags col) sel hsel
      obtain ⟨t0, ht0⟩ := List.exists_mem_of_ne_nil _ hnil
      have hq2 : isSelected col
          ((getRecursiveTags col).foldl (fun s t => s.erase t) sel) = false := by
        rw [Bool.eq_false_iff]
        intro htrue
        exact ((hs1mem t0).mp (((isSelected_iff col _).mp htrue).2 t0 ht0)).2 ht0
      have ht2 : toggleCollection col
          ((getRecursiveTags col).foldl (fun s t => s.erase t) sel) =
          (getRecursiveTags col).foldl (fun s t => if t ∈ s then s else s ++ [t])
            ((getRecursiveTags col).foldl (fun s t => s.erase t) sel) := by
        simp [toggleCollection, hq2]
      rw [ht1, ht2, mem_foldl_pushNew, hs1mem a]
      constructor
      · rintro (⟨ha, _⟩ | haD)
        · exact ha
        · exact hall a haD
      · intro ha
        by_cases haD : a ∈ getRecursiveTags col
        · exact Or.inr haD
        · exact Or.inl ⟨ha, haD⟩
    | inr hdisj =>
      obtain ⟨t0, ht0⟩ := List.exists_mem_of_ne_nil _ hnil
      have hq1 : isSelected col sel = false := by
        rw [Bool.eq_false_iff]
        intro htrue
        exact hdisj t0 ht0 (((isSelected_iff col sel).mp htrue).2 t0 ht0)
      have ht1 : toggleCollection col sel =
          (getRecursiveTags col).foldl (fun s t => if t ∈ s then s else s ++ [t]) sel := by
        simp [toggleCollection, hq1]
      have hs1mem := mem_foldl_pushNew (getRecursiveTags col) sel
      have hs1nodup := nodup_foldl_pushNew (getRecursiveTags col) sel hsel
      have hq2 : isSelected col
          ((getRecursiveTags col).foldl (fun s t => if t ∈ s then s else s ++ [t]) sel) = true :=
        (isSelected_iff col _).mpr
          ⟨hnil, fun t ht => (hs1mem t).mpr (Or.inr ht)⟩
      have ht2 : toggleCollection col
          ((getRecursiveTags col).foldl (fun s t => if t ∈ s then s else s ++ [t]) sel) =
          (getRecursiveTags col).foldl (fun s t => s.erase t)
            ((getRecursiveTags col).foldl (fun s t => if t ∈ s then s else s ++ [t]) sel) := by
        simp [toggleCollection, hq2]
      rw [ht1, ht2, mem_foldl_erase _ _ hs1nodup a, hs1mem a]
      constructor
      · rintro ⟨h1 | h1, h2⟩
        · exact h1
        · exact absurd h1 h2
      · intro ha
        exact ⟨Or.inl ha, fun haD => hdisj a haD ha⟩

/-- Witness for C1 (amended): double toggle on a fully selected collection
restores membership at a concrete input. -/
theorem c1_toggle_involutive_witness :
    (5 : Nat) ∈ toggleCollection (TagCollection.mk 1 [0, 1] [])
        (toggleCollection (TagCollection.mk 1 [0, 1] []) [0, 1, 5]) ↔
      (5 : Nat) ∈ [0, 1, 5] :=
  c1_toggle_involutive (TagCollection.mk 1 [0, 1] []) [0, 1, 5]
    (by decide) (Or.inl (by decide)) 5

/-! ## Claim C9 -/

theorem log_foldl_removalBlocks (l : List (Option ClientFile)) :
    ∀ st : FileStoreState,
      (l.foldl
        (fun s of =>
          match of with
          | some f => removeFile f s
          | none => { s with log := s.log ++ [.logNotFound] }) st).log =
      st.log ++ l.flatMap removalBlock := by
  induction l with
  | nil => intro st; simp
  | cons o l ih =>
    intro st
    rw [List.foldl_cons, ih]
    cases o with
    | some f => simp [removeFile, removalBlock]
    | none => simp [removalBlock]

/-- C9: `removeFilesById` first resolves every id against the current file
list, then processes the resolutions strictly sequentially in the given
order — the produced event log is exactly the in-order concatenation of one
contiguous block per id (deselect, dispose, remove-from-list, backend
removal for a resolved id; the not-found console log otherwise), so every
id's backend removal is issued and awaited before any event of the next id.
Removals are never interleaved. -/
theorem c9_sequential_removal (ids : List Nat) (st : FileStoreState) :
    (removeFilesById ids st).log =
      st.log ++
        (ids.map (fun i => st.fileList.find? (fun f => f.id == i))).flatMap
          removalBlock := by
  unfold removeFilesById
  exact log_foldl_removalBlocks _ st

/-! ## Claim C10 -/

theorem count_backendRemove_dispose_map (l : List ClientFile) (i : Nat) :
    (l.map (fun f => RemovalEvent.dispose f.obj)).count
      (RemovalEvent.backendRemove i) = 0 := by
  rw [List.count_eq_zero]
  simp

/-- C10: during reconciliation, a backend record whose path fails the
existence check and whose id matches an in-memory file gets its backend
deletion requested exactly twice — once directly for the backend record and
once more through `removeFile` on the matching in-memory file: the count of
`backendRemove` events for that id grows by two. -/
theorem c10_double_backend_removal (st : FileStoreState) (b : IFile)
    (fsExists : Nat → Bool) (hfs : fsExists b.path = false)
    (hmem : ∃ f ∈ st.fileList, f.id = b.id) :
    ((updateFromBackend fsExists [b] st).log).count
        (RemovalEvent.backendRemove b.id) =
      (st.log).count (RemovalEvent.backendRemove b.id) + 2 := by
  obtain ⟨f0, hf0mem, hf0id⟩ := hmem
  have hfind : ∃ cf, st.fileList.find? (fun f => f.id == b.id) = some cf := by
    rw [← Option.isSome_iff_exists, List.find?_isSome]
    exact ⟨f0, hf0mem, by simp [hf0id]⟩
  obtain ⟨cf, hcf⟩ := hfind
  have hcfid : cf.id = b.id := by simpa using List.find?_some hcf
  have hpr : prunePass fsExists [b] st =
      (removeFile cf { st with log := st.log ++ [.backendRemove b.id] }, [false]) := by
    simp [prunePass, pruneOne, hfs, hcf]
  have hsurv : survivingFiles [b] [false] = [] := by
    simp [survivingFiles]
  simp only [updateFromBackend, hpr, hsurv]
  split
  · simp [removeFile, filesFromBackend, List.count_append, List.count_cons,
      List.count_nil, hcfid]
  · simp [clearFileList, removeFile, List.count_append, List.count_cons,
      List.count_nil, hcfid, count_backendRemove_dispose_map]

/-- Witness for C10 at a one-file store whose sole backend record fails the
existence check. -/
theorem c10_double_backend_removal_witness :
    ((updateFromBackend (fun _ => false) [⟨5, 7⟩] ⟨[⟨0, 5, 7⟩], 1, []⟩).log).count
        (RemovalEvent.backendRemove 5) =
      (([] : List RemovalEvent)).count (RemovalEvent.backendRemove 5) + 2 :=
  c10_double_backend_removal ⟨[⟨0, 5, 7⟩], 1, []⟩ ⟨5, 7⟩ (fun _ => false)
    rfl ⟨⟨0, 5, 7⟩, by decide, rfl⟩

/-! ## Claim C2 -/

theorem prunePass_all_exists (fsExists : Nat → Bool) (bfs : List IFile) :
    ∀ st : FileStoreState, (∀ b ∈ bfs, fsExists b.path = true) →
      prunePass fsExists bfs st = (st, List.replicate bfs.length true) := by
  induction bfs with
  | nil => intro st _; rfl
  | cons b bfs ih =>
    intro st h
    have hb : fsExists b.path = true := h b (by simp)
    simp [prunePass, pruneOne, hb, ih st (fun x hx => h x (by simp [hx])),
      List.replicate_succ]

theorem survivingFiles_all_true (bfs : List IFile) :
    survivingFiles bfs (List.replicate bfs.length true) = bfs := by
  induction bfs with
  | nil => rfl
  | cons b bfs ih =>
    simp only [survivingFiles, List.length_cons, List.replicate_succ,
      List.zip_cons_cons, List.filterMap_cons] at ih ⊢
    simp [ih]

theorem filesFromBackend_obj_ge (bfs : List IFile) :
    ∀ (n : Nat) (g : ClientFile), g ∈ filesFromBackend bfs n → n ≤ g.obj := by
  induction bfs with
  | nil =>
    intro n g h
    simp [filesFromBackend] at h
  | cons b bfs ih =>
    intro n g h
    simp only [filesFromBackend, List.mem_cons] at h
    cases h with
    | inl h => simp [h]
    | inr h => exact le_trans (Nat.le_succ n) (ih (n + 1) g h)

/-- C2: the claim states that reconciliation preserves object identity for
files whose backing paths still exist. At a store holding the single file
object with token `0`, id `5`, path `7`, reconciling against the very same
backend record with an existence check that succeeds everywhere yields a
file list containing only the freshly built object with token `1`, and a
disposal of the old object token `0` is logged — the unaffected file was
disposed and replaced, refuting the claim. -/
theorem c2_counterexample :
    (updateFromBackend (fun _ => true) [⟨5, 7⟩] ⟨[⟨0, 5, 7⟩], 1, []⟩).fileList =
      [⟨1, 5, 7⟩] ∧
    (updateFromBackend (fun _ => true) [⟨5, 7⟩] ⟨[⟨0, 5, 7⟩], 1, []⟩).log =
      [RemovalEvent.dispose 0] := by
  decide

/-- C2 (amended): during reconciliation, stale entries are pruned, but
object identity is not preserved — whenever the in-memory list is nonempty
and some backend record survives the existence check (here: all paths
exist, the list and the batch nonempty), every in-memory file object is
disposed and the rebuilt list contains only freshly allocated objects,
none of them identical to a previous one. -/
theorem c2_full_replace (fsExists : Nat → Bool) (backendFiles : List IFile)
    (st : FileStoreState)
    (hex : ∀ b ∈ backendFiles, fsExists b.path = true)
    (hne : st.fileList ≠ []) (hbf : backendFiles ≠ [])
    (hobj : ∀ f ∈ st.fileList, f.obj < st.nextObj) :
    ∀ f ∈ st.fileList,
      RemovalEvent.dispose f.obj ∈ (updateFromBackend fsExists backendFiles st).log ∧
      ∀ g ∈ (updateFromBackend fsExists backendFiles st).fileList, g.obj ≠ f.obj := by
  have hpr := prunePass_all_exists fsExists backendFiles st hex
  have h1 : ¬ st.fileList.length = 0 := by
    simpa [List.length_eq_zero] using hne
  have h2 : ¬ backendFiles.length = 0 := by
    simpa [List.length_eq_zero] using hbf
  have hres : updateFromBackend fsExists backendFiles st =
      replaceFileList (filesFromBackend backendFiles st.nextObj)
        { st with nextObj := st.nextObj + backendFiles.length } := by
    simp only [updateFromBackend, hpr, survivingFiles_all_true, if_neg h1, if_neg h2]
  rw [hres]
  intro f hf
  constructor
  · simp only [replaceFileList, List.mem_append, List.mem_map]
    exact Or.inr ⟨f, hf, rfl⟩
  · intro g hg
    have hg1 : st.nextObj ≤ g.obj :=
      filesFromBackend_obj_ge backendFiles st.nextObj g
        (by simpa [replaceFileList] using hg)
    have hg2 : f.obj < st.nextObj := hobj f hf
    omega

/-- Witness for C2 (amended): the in-memory object with token `0` is
disposed even though its path exists. -/
theorem c2_full_replace_witness :
    RemovalEvent.dispose 0 ∈
      (updateFromBackend (fun _ => true) [⟨5, 7⟩] ⟨[⟨0, 5, 7⟩], 1, []⟩).log :=
  ((c2_full_replace (fun _ => true) [⟨5, 7⟩] ⟨[⟨0, 5, 7⟩], 1, []⟩
    (by decide) (by decide) (by decide) (by decide)) ⟨0, 5, 7⟩ (by decide)).1

/-! ## Claim C5 -/

theorem filesFromBackend_map_id (bfs : List IFile) :
    ∀ n, (filesFromBackend bfs n).map ClientFile.id = bfs.map IFile.id := by
  induction bfs with
  | nil => intro n; rfl
  | cons b bs ih => intro n; simp [filesFromBackend, ih]

/-- C5: `updateFromBackend` evaluates its policy branches in priority
order, over the state left by the existence pass: if the in-memory list is
empty at that point, the list is populated directly from the surviving
records in their given order (no disposals); otherwise, if no record
survived, every in-memory entry is disposed and the list cleared;
otherwise every in-memory entry is disposed and the list rebuilt fresh
from the surviving records. -/
theorem c5_branch_priority (fsExists : Nat → Bool) (backendFiles : List IFile)
    (st : FileStoreState) :
    ((prunePass fsExists backendFiles st).1.fileList = [] →
       (updateFromBackend fsExists backendFiles st).fileList =
         filesFromBackend
           (survivingFiles backendFiles (prunePass fsExists backendFiles st).2)
           (prunePass fsExists backendFiles st).1.nextObj ∧
       (updateFromBackend fsExists backendFiles st).fileList.map ClientFile.id =
         (survivingFiles backendFiles (prunePass fsExists backendFiles st).2).map
           IFile.id ∧
       (updateFromBackend fsExists backendFiles st).log =
         (prunePass fsExists backendFiles st).1.log) ∧
    ((prunePass fsExists backendFiles st).1.fileList ≠ [] →
       survivingFiles backendFiles (prunePass fsExists backendFiles st).2 = [] →
       (updateFromBackend fsExists backendFiles st).fileList = [] ∧
       (updateFromBackend fsExists backendFiles st).log =
         (prunePass fsExists backendFiles st).1.log ++
           (prunePass fsExists backendFiles st).1.fileList.map
             (fun f => RemovalEvent.dispose f.obj)) ∧
    ((prunePass fsExists backendFiles st).1.fileList ≠ [] →
       survivingFiles backendFiles (prunePass fsExists backendFiles st).2 ≠ [] →
       (updateFromBackend fsExists backendFiles st).fileList =
         filesFromBackend
           (survivingFiles backendFiles (prunePass fsExists backendFiles st).2)
           (prunePass fsExists backendFiles st).1.nextObj ∧
       (updateFromBackend fsExists backendFiles st).log =
         (prunePass fsExists backendFiles st).1.log ++
           (prunePass fsExists backendFiles st).1.fileList.map
             (fun f => RemovalEvent.dispose f.obj)) := by
  refine ⟨?_, ?_, ?_⟩
  · intro h1
    have hlen : (prunePass fsExists backendFiles st).1.fileList.length = 0 := by
      simp [h1]
    simp [updateFromBackend, hlen, h1, filesFromBackend_map_id]
  · intro h1 h2
    have hlen1 : ¬ (prunePass fsExists backendFiles st).1.fileList.length = 0 := by
      simpa [List.length_eq_zero] using h1
    have hlen2 : (survivingFiles backendFiles
        (prunePass fsExists backendFiles st).2).length = 0 := by
      simp [h2]
    simp [updateFromBackend, hlen1, hlen2, clearFileList]
  · intro h1 h2
    have hlen1 : ¬ (prunePass fsExists backendFiles st).1.fileList.length = 0 := by
      simpa [List.length_eq_zero] using h1
    have hlen2 : ¬ (survivingFiles backendFiles
        (prunePass fsExists backendFiles st).2).length = 0 := by
      simpa [List.length_eq_zero] using h2
    simp [updateFromBackend, hlen1, hlen2, replaceFileList]

/-- Witness for C5 at a fresh-load input: an empty in-memory list
reconciled against two existing records takes the first branch. -/
theorem c5_branch_priority_witness :
    (prunePass (fun _ => true) [⟨5, 7⟩, ⟨6, 8⟩] ⟨[], 0, []⟩).1.fileList = [] ∧
    ((updateFromBackend (fun _ => true) [⟨5, 7⟩, ⟨6, 8⟩] ⟨[], 0, []⟩).fileList =
       filesFromBackend
         (survivingFiles [⟨5, 7⟩, ⟨6, 8⟩]
           (prunePass (fun _ => true) [⟨5, 7⟩, ⟨6, 8⟩] ⟨[], 0, []⟩).2)
         (prunePass (fun _ => true) [⟨5, 7⟩, ⟨6, 8⟩] ⟨[], 0, []⟩).1.nextObj ∧
     (updateFromBackend (fun _ => true) [⟨5, 7⟩, ⟨6, 8⟩] ⟨[], 0, []⟩).fileList.map
         ClientFile.id =
       (survivingFiles [⟨5, 7⟩, ⟨6, 8⟩]
         (prunePass (fun _ => true) [⟨5, 7⟩, ⟨6, 8⟩] ⟨[], 0, []⟩).2).map IFile.id ∧
     (updateFromBackend (fun _ => true) [⟨5, 7⟩, ⟨6, 8⟩] ⟨[], 0, []⟩).log =
       (prunePass (fun _ => true) [⟨5, 7⟩, ⟨6, 8⟩] ⟨[], 0, []⟩).1.log) :=
  ⟨by decide,
   (c5_branch_priority (fun _ => true) [⟨5, 7⟩, ⟨6, 8⟩] ⟨[], 0, []⟩).1 (by decide)⟩

/-! ## Claim C8 -/

theorem collection_id_inj {store : List Collection}
    (hids : (store.map Collection.id).Nodup) {a b : Collection}
    (ha : a ∈ store) (hb : b ∈ store) (hid : a.id = b.id) : a = b :=
  List.inj_on_of_nodup_map hids ha hb hid

theorem getElem?_insertIdx_self (l : List Nat) (x : Nat) (n : Nat)
    (hn : n ≤ l.length) : (l.insertIdx n x)[n]? = some x := by
  have hlen : (l.insertIdx n x).length = l.length + 1 :=
    List.length_insertIdx n l hn
  have hn2 : n < (l.insertIdx n x).length := by omega
  rw [List.getElem?_eq_getElem hn2, List.getElem_insertIdx_self l x n hn]

theorem jsSpliceInsert_of_mem (l : List Nat) (x t : Nat) (ht : t ∈ l) :
    jsSpliceInsert l (jsIndexOf l t) x = l.insertIdx (l.indexOf t) x := by
  have h1 : jsIndexOf l t = (l.indexOf t : Int) := by simp [jsIndexOf, ht]
  have h2 : l.indexOf t < l.length := List.indexOf_lt_length.mpr ht
  have h3 : ¬ ((l.indexOf t : Int) < 0) := by
    simp
  unfold jsSpliceInsert spliceStart
  rw [h1, if_neg h3]
  simp [Nat.min_def, Nat.le_of_lt h2, Nat.not_lt.mpr (Nat.le_of_lt h2)]

/-- C8: moving tag T from collection A onto the tag `targetTagId` of
collection B (A ≠ B): the insertion index is the index of the drop-target
tag in `B.tags` before any mutation; afterwards T sits at exactly that
index in B's tags, T has been removed from A's tags, and T appears in no
collection other than B — assuming the tree invariants (distinct
collection ids, T held by exactly the one collection A, A's tag list
duplicate-free) and that the drop target is a tag of B. -/
theorem c8_moveTag_spec (store : List Collection)
    (colId targetTagId movedTagId : Nat) (A B : Collection)
    (hids : (store.map Collection.id).Nodup)
    (hfindA : store.find? (fun c => c.tags.contains movedTagId) = some A)
    (hfindB : store.find? (fun c => c.id == colId) = some B)
    (huniq : ∀ c ∈ store, movedTagId ∈ c.tags → c = A)
    (hAnodup : A.tags.Nodup)
    (htarget : targetTagId ∈ B.tags)
    (hAB : A.id ≠ B.id) :
    ∀ c ∈ onMoveTag store colId targetTagId movedTagId,
      (c.id = B.id →
        c.tags[B.tags.indexOf targetTagId]? = some movedTagId) ∧
      (c.id ≠ B.id → movedTagId ∉ c.tags) := by
  have hBid : B.id = colId := by simpa using List.find?_some hfindB
  have hBmem : B ∈ store := List.mem_of_find?_eq_some hfindB
  have hAmem : A ∈ store := List.mem_of_find?_eq_some hfindA
  have hAcol : ¬ A.id = colId := fun h => hAB (h.trans hBid.symm)
  have hres : onMoveTag store colId targetTagId movedTagId =
      store.map (fun c =>
        let c1 := if c.id = A.id
          then { c with tags := c.tags.erase movedTagId }
          else c
        if c1.id = colId
          then { c1 with
                 tags := jsSpliceInsert c1.tags (jsIndexOf B.tags targetTagId)
                   movedTagId }
          else c1) := by
    unfold onMoveTag
    rw [hfindA, hfindB]
  rw [hres]
  intro c' hc'
  obtain ⟨c, hcmem, rfl⟩ := List.mem_map.mp hc'
  by_cases hcA : c.id = A.id
  · have hcEqA : c = A := collection_id_inj hids hcmem hAmem hcA
    subst hcEqA
    simp [hAcol, hAB, hAnodup.mem_erase_iff]
  · by_cases hcB : c.id = colId
    · have hcEqB : c = B := collection_id_inj hids hcmem hBmem (hcB.trans hBid.symm)
      subst hcEqB
      have hmain : (jsSpliceInsert c.tags (jsIndexOf c.tags targetTagId)
          movedTagId)[c.tags.indexOf targetTagId]? = some movedTagId := by
        rw [jsSpliceInsert_of_mem c.tags movedTagId targetTagId htarget]
        exact getElem?_insertIdx_self c.tags movedTagId
          (c.tags.indexOf targetTagId)
          (Nat.le_of_lt (List.indexOf_lt_length.mpr htarget))
      have hsym : ¬ colId = A.id := fun h => hAcol h.symm
      simp [hcB, hsym, hmain]
    · have hcB2 : ¬ c.id = B.id := fun h => hcB (h.trans hBid)
      simp [hcA, hcB, hcB2]
      exact fun hmem => hcA (by rw [huniq c hcmem hmem])

/-- Witness for C8: moving tag 10 from collection 1 onto tag 20 of
collection 2 places it at index 0 of collection 2's tags. -/
theorem c8_moveTag_spec_witness :
    (Collection.mk 2 [10, 20, 21] []).tags[(Collection.mk 2 [20, 21] []).tags.indexOf 20]? =
      some 10 :=
  ((c8_moveTag_spec [⟨1, [10], []⟩, ⟨2, [20, 21], []⟩] 2 20 10
      ⟨1, [10], []⟩ ⟨2, [20, 21], []⟩
      (by decide) (by decide) (by decide) (by decide) (by decide) (by decide)
      (by decide))
    ⟨2, [10, 20, 21], []⟩ (by decide)).1 (by decide)

end Allusion
